import Mathlib

/-
Verification of the fikaboard ingestion core against its specification.

The Lean definitions below are a shallow embedding of the Python sources:
  - shared/leveling.py      (XP curve, level computation, XP award table)
  - worker/parsers.py       (LineParsers.parse and helpers)
  - worker/log_ingestor.py  (Store operations, quest rotation, main loop)
Machine integers are modelled as Nat (all quantities involved are
non-negative counters), timestamps as explicit record values, the sqlite
tables as Lean lists of row records, and SQL statements as list
transformations with the same WHERE/UPDATE semantics.
-/

namespace Fika

/-! ## Leveling model (shared/leveling.py) -/

/-- Embeds xp_for_level (shared/leveling.py, lines 3-6):
if level <= 1 return 0 else 100 * (level - 1) * (level - 1) + 100. -/
def xp_for_level (level : Nat) : Nat :=
  if level ≤ 1 then 0 else 100 * (level - 1) * (level - 1) + 100

/-- Fuel-indexed embedding of the while loop of level_from_xp
(shared/leveling.py, lines 8-12): while xp >= xp_for_level(lvl + 1): lvl += 1.
The fuel bounds the number of iterations; level_go_spec below proves that
the fuel supplied by level_from_xp never runs out before the loop guard
fails, so this equals the denotation of the unbounded loop. -/
def level_from_xp_go (xp : Nat) : Nat → Nat → Nat
  | 0, lvl => lvl
  | fuel + 1, lvl =>
      if xp_for_level (lvl + 1) ≤ xp then level_from_xp_go xp fuel (lvl + 1) else lvl

/-- Embeds level_from_xp (shared/leveling.py, lines 8-12): lvl starts at 1. -/
def level_from_xp (xp : Nat) : Nat :=
  level_from_xp_go xp xp 1

/-- Embeds DEFAULT_EVENT_XP (shared/leveling.py, lines 14-21), in source order. -/
def DEFAULT_EVENT_XP : List (String × Nat) :=
  [("KILL", 100), ("HEADSHOT", 25), ("SURVIVE", 150),
   ("EXTRACT", 75), ("DOGTAG", 30), ("DEATH", 0)]

/-- Uppercase conversion of a string, character by character, modelling the
Python str.upper for the ASCII event-type tags used here. -/
def strUpper (s : String) : String :=
  String.mk (s.toList.map Char.toUpper)

/-- Embeds xp_for_event (shared/leveling.py, lines 23-24):
DEFAULT_EVENT_XP.get(event_type.upper(), 0). The data argument of the
source is unused there and is omitted. -/
def xp_for_event (event_type : String) : Nat :=
  match DEFAULT_EVENT_XP.find? (fun p => p.1 == strUpper event_type) with
  | some p => p.2
  | none => 0

/-! ## Event model and parser (worker/parsers.py)

Compiled regular expressions are modelled abstractly: a matcher is a
function from the line to an optional group dictionary, exactly the
observable behaviour of re.Pattern.search followed by Match.groupdict.
The stdlib datetime.strptime is likewise a parameter of the parsing
environment (a pure function of format and input for the three formats
used); datetime.now and date.today are the processing-time inputs. -/

/-- Timestamps, as the field tuple of a UTC datetime. The sources normalize
every parsed datetime to UTC via _to_utc (worker/parsers.py, lines 57-62),
which leaves the field values of a naive strptime result unchanged, so the
timezone member is not modelled. -/
structure DT where
  year : Nat
  month : Nat
  day : Nat
  hour : Nat
  minute : Nat
  second : Nat
deriving DecidableEq, BEq

/-- Calendar date, for date.today() in _parse_ts. -/
structure Date where
  year : Nat
  month : Nat
  day : Nat
deriving DecidableEq, BEq

/-- Embeds the Event dataclass (worker/parsers.py, lines 13-18). The data
mapping holds the string captures actually stored there. -/
structure Event where
  ts : DT
  type : String
  game_name : String
  data : List (String × String)
deriving DecidableEq, BEq

/-- Result of Match.groupdict(): named groups in definition order, each
either a captured string or None. -/
abbrev GroupDict := List (String × Option String)

/-- Embeds groupdict().get(k): None both when the group is absent and when
it did not participate in the match. -/
def gdGet (gd : GroupDict) (k : String) : Option String :=
  match gd.find? (fun p => p.1 == k) with
  | some p => p.2
  | none => none

/-- Abstract compiled pattern: re.Pattern.search returning the groupdict of
the match, or None when the pattern does not match the line. -/
abbrev Matcher := String → Option GroupDict

/-- Embeds the compiled state of LineParsers (worker/parsers.py, lines
41-54): the pattern table in configuration order with upper-cased type
names, and the headshot keyword list (default HEADSHOT, HS). -/
structure ParserCfg where
  patterns : List (String × Matcher)
  headshot_keywords : List String

/-- Processing-time environment of one parse call: the datetime.now(utc)
and date.today() values read during the call, and the stdlib strptime as
an abstract pure function of (format, input). -/
structure ParseEnv where
  now : DT
  today : Date
  strptime : String → String → Option DT

/-- Whitespace test matching str.strip of the sources for the ASCII
whitespace characters. -/
def isSpaceChar (c : Char) : Bool :=
  c == ' ' || c == '\t' || c == '\n' || c == '\r' || c == '\x0B' || c == '\x0C'

def dropLeadingSpace : List Char → List Char
  | [] => []
  | c :: rest => if isSpaceChar c then dropLeadingSpace rest else c :: rest

/-- Embeds str.strip(): remove leading and trailing whitespace. -/
def strStrip (s : String) : String :=
  String.mk ((dropLeadingSpace ((dropLeadingSpace s.toList).reverse)).reverse)

/-- Char-list prefix test, building block of the substring test. -/
def isSubAt : List Char → List Char → Bool
  | [], _ => true
  | _ :: _, [] => false
  | a :: as, b :: bs => a == b && isSubAt as bs

def subOccurs (sub : List Char) : List Char → Bool
  | [] => sub.isEmpty
  | c :: rest => isSubAt sub (c :: rest) || subOccurs sub rest

/-- Embeds the Python substring test (kw in line); an empty needle is
contained in every string. -/
def strContains (s sub : String) : Bool :=
  subOccurs sub.toList s.toList

/-- Embeds _parse_ts (worker/parsers.py, lines 64-95). Note the falsy test
(if not ts_raw) covers both a missing capture and an empty string; the
time-only format merges the parsed time with today() and both that date
and the final fallback depend on processing time. -/
def parse_ts (env : ParseEnv) (ts_raw : Option String) : DT :=
  match ts_raw with
  | none => env.now
  | some s =>
    if s = "" then env.now
    else
      match env.strptime "%Y-%m-%dT%H:%M:%S" s with
      | some d => d
      | none =>
        match env.strptime "%Y-%m-%d %H:%M:%S" s with
        | some d => d
        | none =>
          match env.strptime "%H:%M:%S" s with
          | some t =>
              { year := env.today.year, month := env.today.month,
                day := env.today.day, hour := t.hour, minute := t.minute,
                second := t.second }
          | none => env.now

/-- Embeds _contains_headshot (worker/parsers.py, lines 97-110): the
headshot/hs named group chosen by the Python or-chain (empty string is
falsy), truthy when its strip is non-empty; otherwise any configured
keyword as a case-insensitive substring of the raw line. -/
def contains_headshot (kws : List String) (line : String) (gd : GroupDict) : Bool :=
  let hs : Option String :=
    match gdGet gd "headshot" with
    | some v => if v = "" then gdGet gd "hs" else some v
    | none => gdGet gd "hs"
  (match hs with
   | some v => strStrip v != ""
   | none => false) ||
  kws.any (fun kw =>
    subOccurs (kw.toList.map Char.toUpper) (line.toList.map Char.toUpper))

/-- Identity tuple used for within-line dedup (worker/parsers.py): the
four-component keys of the named branches and the generic-branch key with
its sorted data items. Distinct constructors model the distinct Python
tuple shapes, which never compare equal to each other. -/
inductive SeenKey where
  | quad (t : String) (ts : DT) (a : String) (b : String)
  | gen (t : String) (ts : DT) (a : String) (items : List (String × String))
deriving DecidableEq, BEq

/-- Appends the event unless its identity key was already seen on this
line (the common emit step of every branch of parse). -/
def emit (acc : List Event × List SeenKey) (ev : Event) (key : SeenKey) :
    List Event × List SeenKey :=
  if acc.2.contains key then acc else (acc.1 ++ [ev], key :: acc.2)

/-- Lexicographic code-point order on strings, as Python compares str. -/
def charListLe : List Char → List Char → Bool
  | [], _ => true
  | _ :: _, [] => false
  | a :: as, b :: bs =>
      if a == b then charListLe as bs else Nat.blt a.toNat b.toNat

def insertPairSorted (p : String × String) :
    List (String × String) → List (String × String)
  | [] => [p]
  | q :: rest =>
      if charListLe p.1.toList q.1.toList then p :: q :: rest
      else q :: insertPairSorted p rest

/-- Embeds tuple(sorted(ev.data.items())) of the generic branch: sort the
items by key (group names of one pattern are distinct, so key order alone
decides, as in the Python tuple comparison). -/
def sortPairs (l : List (String × String)) : List (String × String) :=
  l.foldr insertPairSorted []

/-- Embeds the dict comprehension over gd.items() keeping captures that are
not None, in insertion order. -/
def gdItems (gd : GroupDict) : List (String × String) :=
  gd.foldr (fun p acc => match p.2 with | some v => (p.1, v) :: acc | none => acc) []

/-- Embeds the DOGTAG payload loop (worker/parsers.py, lines 180-184):
fields victim, level, side, weapon, status kept when captured and not
whitespace-only; the stored value is the raw capture. -/
def dogtagPayload (gd : GroupDict) : List (String × String) :=
  ["victim", "level", "side", "weapon", "status"].filterMap (fun k =>
    match gdGet gd k with
    | some v => if strStrip v = "" then none else some (k, v)
    | none => none)

/-- Embeds payload.get(k, dflt). -/
def payloadGet (payload : List (String × String)) (k dflt : String) : String :=
  match payload.find? (fun p => p.1 == k) with
  | some p => p.2
  | none => dflt

/-- Embeds the Python or-chain (name or killer or victim): first non-empty
string, else the last. -/
def firstNonEmpty (a b c : String) : String :=
  if a ≠ "" then a else if b ≠ "" then b else c

/-- Body of one iteration of the pattern loop of LineParsers.parse
(worker/parsers.py, lines 122-197): try the pattern, normalize the common
fields, then the type-specific derivation with the shared dedup state. -/
def parseOne (env : ParseEnv) (kws : List String) (line : String)
    (acc : List Event × List SeenKey) (pat : String × Matcher) :
    List Event × List SeenKey :=
  match pat.2 line with
  | none => acc
  | some gd =>
    let etype := pat.1
    let ts := parse_ts env (gdGet gd "ts")
    let killer := strStrip (match gdGet gd "killer" with | some s => s | none => "")
    let victim := strStrip (match gdGet gd "victim" with | some s => s | none => "")
    let name := strStrip (match gdGet gd "name" with | some s => s | none => "")
    if etype = "KILL" then
      let acc1 := emit acc ⟨ts, "KILL", killer, [("victim", victim)]⟩
        (SeenKey.quad "KILL" ts killer victim)
      if contains_headshot kws line gd then
        emit acc1 ⟨ts, "HEADSHOT", killer, [("victim", victim)]⟩
          (SeenKey.quad "HEADSHOT" ts killer victim)
      else acc1
    else if etype = "DEATH" then
      emit acc ⟨ts, "DEATH", victim, [("killer", killer)]⟩
        (SeenKey.quad "DEATH" ts victim killer)
    else if etype = "SURVIVE" ∨ etype = "EXTRACT" then
      let base := name
      let acc1 := emit acc ⟨ts, etype, base, []⟩ (SeenKey.quad etype ts base "")
      if etype = "EXTRACT" then
        emit acc1 ⟨ts, "SURVIVE", base, [("from", "EXTRACT")]⟩
          (SeenKey.quad "SURVIVE" ts base "EXTRACT")
      else acc1
    else if etype = "DOGTAG" then
      let payload := dogtagPayload gd
      let actor := firstNonEmpty name killer victim
      emit acc ⟨ts, "DOGTAG", actor, payload⟩
        (SeenKey.quad "DOGTAG" ts actor (payloadGet payload "victim" ""))
    else
      let actor := firstNonEmpty name killer victim
      let items := gdItems gd
      emit acc ⟨ts, etype, actor, items⟩ (SeenKey.gen etype ts actor (sortPairs items))

/-- Embeds LineParsers.parse (worker/parsers.py, lines 113-199): fold the
per-pattern derivation over the configured patterns in order, starting
from an empty event list and empty dedup set, and return the events. The
Lean function is total by construction, matching the contract that parse
never raises. -/
def parse (cfg : ParserCfg) (env : ParseEnv) (line : String) : List Event :=
  (cfg.patterns.foldl (parseOne env cfg.headshot_keywords line) ([], [])).1

/-! ## Durable store and Progression Engine (worker/log_ingestor.py)

The sqlite tables are lists of row records; each SQL statement of the
Store methods becomes one list transformation with the same WHERE and SET
semantics. CURRENT_TIMESTAMP and the wall clock enter as an explicit now
argument (a Nat instant; ISO-8601 strings compare chronologically, so
string comparison on timestamps is Nat comparison). -/

structure PlayerRow where
  id : Nat
  game_name : String
  eligible : Bool
  last_seen : Nat
deriving DecidableEq, BEq

structure StatsRow where
  player_id : Nat
  kills : Nat
  deaths : Nat
  extracts : Nat
  survivals : Nat
  dogtags : Nat
  xp : Nat
  level : Nat
deriving DecidableEq, BEq

structure EventRow where
  ts : DT
  type : String
  game_name : String
  data : List (String × String)
deriving DecidableEq, BEq

structure QuestRow where
  id : Nat
  key : String
  title : String
  qtype : String
  event_type : String
  target : Nat
  start_ts : Nat
  end_ts : Nat
  active : Bool
deriving DecidableEq, BEq

structure QPRow where
  player_id : Nat
  quest_id : Nat
  progress : Nat
  completed_ts : Option Nat
deriving DecidableEq, BEq

structure Store where
  players : List PlayerRow
  stats : List StatsRow
  events : List EventRow
  quests : List QuestRow
  quest_progress : List QPRow
  next_player_id : Nat
  next_quest_id : Nat
deriving DecidableEq, BEq

/-- Modelled from the spec: the schema file shared/schema.sql is not among
the sources. Per section 3 of the spec, a Stats record is zero-initialized
with level defaulting to 1. -/
def defaultStats (pid : Nat) : StatsRow :=
  ⟨pid, 0, 0, 0, 0, 0, 0, 1⟩

/-- Embeds Store.upsert_player (worker/log_ingestor.py, lines 21-27):
INSERT ... ON CONFLICT(game_name) DO UPDATE SET last_seen RETURNING id.
Modelled from the spec where the missing schema decides the behaviour:
game_name is a unique natural key and the eligible opt-in flag of a new
player defaults to unset (spec section 3). -/
def upsert_player (now : Nat) (game_name : String) (s : Store) : Nat × Store :=
  match s.players.find? (fun p => p.game_name == game_name) with
  | some p =>
      (p.id,
       { s with players := s.players.map (fun q =>
           if q.game_name == game_name then { q with last_seen := now } else q) })
  | none =>
      (s.next_player_id,
       { s with
           players := s.players ++ [⟨s.next_player_id, game_name, false, now⟩],
           next_player_id := s.next_player_id + 1 })

/-- Embeds Store.ensure_stats (worker/log_ingestor.py, lines 29-30):
INSERT OR IGNORE INTO stats(player_id). -/
def ensure_stats (pid : Nat) (s : Store) : Store :=
  if s.stats.any (fun r => r.player_id == pid) then s
  else { s with stats := s.stats ++ [defaultStats pid] }

/-- Embeds Store.add_event (worker/log_ingestor.py, lines 32-35): append
the event to the events table. -/
def add_event (ev : Event) (s : Store) : Store :=
  { s with events := s.events ++ [⟨ev.ts, ev.type, ev.game_name, ev.data⟩] }

/-- Embeds the field_map dispatch of award_xp_and_stats
(worker/log_ingestor.py, lines 39-42): bump the stat counter of the event
type, or leave the row unchanged for unmapped types. -/
def bumpStat (t : String) (r : StatsRow) : StatsRow :=
  if t == "KILL" then { r with kills := r.kills + 1 }
  else if t == "DEATH" then { r with deaths := r.deaths + 1 }
  else if t == "EXTRACT" then { r with extracts := r.extracts + 1 }
  else if t == "SURVIVE" then { r with survivals := r.survivals + 1 }
  else if t == "DOGTAG" then { r with dogtags := r.dogtags + 1 }
  else r

/-- Embeds the eligibility read of award_xp_and_stats (worker/log_ingestor.py,
lines 45-47): SELECT eligible FROM players WHERE id=pid, with a missing
row read as not eligible. -/
def playerEligible (s : Store) (pid : Nat) : Bool :=
  match s.players.find? (fun p => p.id == pid) with
  | some p => p.eligible
  | none => false

def statsRow (s : Store) (pid : Nat) : Option StatsRow :=
  s.stats.find? (fun r => r.player_id == pid)

def statsXp (s : Store) (pid : Nat) : Option Nat :=
  (statsRow s pid).map (fun r => r.xp)

def statsLevel (s : Store) (pid : Nat) : Option Nat :=
  (statsRow s pid).map (fun r => r.level)

/-- Stage 1 of award_xp_and_stats (worker/log_ingestor.py, lines 38-42):
UPDATE stats SET field = field + 1 WHERE player_id = pid, for the mapped
stat field of the event type. -/
def applyStatCounter (pid : Nat) (t : String) (s : Store) : Store :=
  { s with stats := s.stats.map (fun r =>
      if r.player_id == pid then bumpStat t r else r) }

/-- Stage 2 of award_xp_and_stats (worker/log_ingestor.py, lines 43-53):
when the award is non-zero and the player is eligible, add it to xp,
re-read the row, and raise the cached level when level_from_xp exceeds it.
The none branch of the re-read is unreachable in the ingestion flow
(ensure_stats has inserted the row; the source would raise there on a
missing row). -/
def applyXpGate (pid : Nat) (xp : Nat) (s : Store) : Store :=
  if xp ≠ 0 then
    if playerEligible s pid then
      let s1 := { s with stats := s.stats.map (fun r =>
          if r.player_id == pid then { r with xp := r.xp + xp } else r) }
      match statsRow s1 pid with
      | some r2 =>
          let new_level := level_from_xp r2.xp
          if r2.level < new_level then
            { s1 with stats := s1.stats.map (fun r =>
                if r.player_id == pid then { r with level := new_level } else r) }
          else s1
      | none => s1
    else s
  else s

/-- Row effect of the quest-progress UPDATE (worker/log_ingestor.py, lines
55-63): add 1 to progress when the row belongs to the player and its
quest_id is in the set of active quests tracking event type t. -/
def incUpd (quests : List QuestRow) (pid : Nat) (t : String) (r : QPRow) : QPRow :=
  if r.player_id == pid &&
     quests.any (fun q => q.id == r.quest_id && q.active && q.event_type == t)
  then { r with progress := r.progress + 1 } else r

/-- Row effect of the completion UPDATE (worker/log_ingestor.py, lines
65-75): stamp completed_ts with the current time when the row belongs to
the player, its quest_id is in the set of active quests, its progress has
reached the target of its quest (scalar subquery on the quests table), and
completed_ts is still NULL. -/
def cmpUpd (quests : List QuestRow) (now pid : Nat) (r : QPRow) : QPRow :=
  if r.player_id == pid &&
     quests.any (fun q => q.id == r.quest_id && q.active) &&
     (match quests.find? (fun q => q.id == r.quest_id) with
      | some q => decide (q.target ≤ r.progress)
      | none => false) &&
     r.completed_ts.isNone
  then { r with completed_ts := some now } else r

/-- Stage 3 of award_xp_and_stats (worker/log_ingestor.py, lines 54-63):
UPDATE quest_progress SET progress = progress + 1 WHERE player_id = pid
AND quest_id IN (SELECT id FROM quests WHERE active=1 AND event_type=t).
Only existing rows are updated; no progress row is ever inserted. -/
def applyQuestIncrement (pid : Nat) (t : String) (s : Store) : Store :=
  { s with quest_progress := s.quest_progress.map (incUpd s.quests pid t) }

/-- Stage 4 of award_xp_and_stats (worker/log_ingestor.py, lines 64-75):
UPDATE quest_progress SET completed_ts=CURRENT_TIMESTAMP WHERE
player_id = pid AND quest_id IN (SELECT id FROM quests WHERE active=1)
AND progress >= (scalar subquery for the target of the quest of the row)
AND completed_ts IS NULL. -/
def applyQuestCompletion (now : Nat) (pid : Nat) (s : Store) : Store :=
  { s with quest_progress := s.quest_progress.map (cmpUpd s.quests now pid) }

/-- Embeds Store.award_xp_and_stats (worker/log_ingestor.py, lines 37-75)
as the sequence of its four SQL stages in source order. -/
def award_xp_and_stats (now : Nat) (pid : Nat) (ev : Event) (s : Store) : Store :=
  applyQuestCompletion now pid
    (applyQuestIncrement pid ev.type
      (applyXpGate pid (xp_for_event ev.type)
        (applyStatCounter pid ev.type s)))

/-- The per-event unit of work of the Progression Engine (spec section 4.4;
the body that worker/log_ingestor.py main, lines 115-118, runs per event):
upsert the player, ensure stats, append to the event log, then apply
stats, XP and quest updates. -/
def apply_event (now : Nat) (ev : Event) (s : Store) : Store :=
  let ps := upsert_player now ev.game_name s
  award_xp_and_stats now ps.1 ev (add_event ev (ensure_stats ps.1 ps.2))

/-- Folds a timed event sequence through the engine, one atomic unit of
work per event. -/
def run_events (s : Store) (l : List (Nat × Event)) : Store :=
  l.foldl (fun st te => apply_event te.1 te.2 st) s

def progressRow (s : Store) (p qid : Nat) : Option QPRow :=
  s.quest_progress.find? (fun r => r.player_id == p && r.quest_id == qid)

def progressOf (s : Store) (p qid : Nat) : Option Nat :=
  (progressRow s p qid).map (fun r => r.progress)

def completedOf (s : Store) (p qid : Nat) : Option (Option Nat) :=
  (progressRow s p qid).map (fun r => r.completed_ts)

/-! ## Quest rotation (worker/log_ingestor.py, lines 91-103) -/

inductive SqlErr where
  | uniqueViolation
deriving DecidableEq, BEq

/-- Modelled from the spec: the quests table schema (shared/schema.sql) is
not among the sources; spec section 3 calls key a stable natural key used
for idempotent reseeding, so the model gives key a UNIQUE constraint and a
plain INSERT of a present key fails with a uniqueness violation. -/
def insertQuest (key title qtype event_type : String)
    (target start_ts end_ts : Nat) (active : Bool) (s : Store) :
    Except SqlErr Store :=
  if s.quests.any (fun q => q.key == key) then Except.error SqlErr.uniqueViolation
  else Except.ok { s with
    quests := s.quests ++
      [⟨s.next_quest_id, key, title, qtype, event_type, target, start_ts, end_ts, active⟩],
    next_quest_id := s.next_quest_id + 1 }

/-- Seconds of timedelta(days=7). -/
def secondsPerWeek : Nat := 604800

/-- Embeds rotate_weekly_quests (worker/log_ingestor.py, lines 91-103):
deactivate quests whose end_ts has passed; when zero quests remain active,
INSERT the two seed quests (plain INSERT, lines 97-102 — not INSERT OR
IGNORE). -/
def rotate_weekly_quests (now : Nat) (s : Store) : Except SqlErr Store :=
  let s1 := { s with quests := s.quests.map (fun q =>
      if q.end_ts ≤ now then { q with active := false } else q) }
  if (s1.quests.filter (fun q => q.active)).length = 0 then
    match insertQuest "dogtags_week" "Collect 5 dog tags" "count_event" "DOGTAG"
        5 now (now + secondsPerWeek) true s1 with
    | Except.error e => Except.error e
    | Except.ok s2 =>
        insertQuest "survive_week" "Survive 5 raids" "count_event" "SURVIVE"
          5 now (now + secondsPerWeek) true s2
  else Except.ok s1

/-! ## Ingestion loop (worker/log_ingestor.py, lines 105-119) -/

inductive PyErr where
  | attributeError
deriving DecidableEq, BEq

/-- Embeds one iteration of the ingestion loop body of main
(worker/log_ingestor.py, lines 111-119) under Python semantics:
ev = parsers.parse(line) binds the returned list; if not ev: continue
skips an empty list; otherwise the next statement evaluates ev.game_name
on that list, and a Python list has no attribute game_name, so the
iteration raises AttributeError before touching the store. -/
def mainLoopBody (cfg : ParserCfg) (env : ParseEnv) (s : Store) (line : String) :
    Except PyErr Store :=
  match parse cfg env line with
  | [] => Except.ok s
  | _ :: _ => Except.error PyErr.attributeError

/-- SQL IN-subquery test of stage 3: some active quest with this id tracks
event type t. -/
def questActiveMatching (s : Store) (qid : Nat) (t : String) : Bool :=
  s.quests.any (fun q => q.id == qid && q.active && q.event_type == t)

/-! ## Concrete instances used in the evaluations below -/

def dtA : DT := ⟨2024, 1, 1, 0, 0, 0⟩

def dtB : DT := ⟨2024, 1, 1, 0, 0, 1⟩

/-- A strptime that parses none of the inputs fed to it; the demo patterns
below capture no ts group, so it is never consulted on a capture. -/
def noStrp : String → String → Option DT := fun _ _ => none

def envA : ParseEnv := ⟨dtA, ⟨2024, 1, 1⟩, noStrp⟩

def envB : ParseEnv := ⟨dtB, ⟨2024, 1, 1⟩, noStrp⟩

/-- Abstract compiled form of a KILL rule without a ts group, for example
KILL.*killer=(?P<killer>\S+).*victim=(?P<victim>\S+), as it behaves on the
demo lines: it matches any line containing KILL and captures the two
names. -/
def killNoTsMatcher : Matcher := fun line =>
  if strContains line "KILL" then
    some [("killer", some "PlayerA"), ("victim", some "PlayerB")]
  else none

def demoCfg : ParserCfg := ⟨[("KILL", killNoTsMatcher)], ["HEADSHOT", "HS"]⟩

def sEmpty : Store := ⟨[], [], [], [], [], 1, 1⟩

/-- C2 starting state: one eligible player with a zero-initialized stats
row at level 1, as the claim posits. -/
def sC2 : Store :=
  { players := [⟨1, "P", true, 0⟩], stats := [⟨1, 0, 0, 0, 0, 0, 0, 1⟩],
    events := [], quests := [], quest_progress := [],
    next_player_id := 2, next_quest_id := 1 }

def eKill : Event := ⟨dtA, "KILL", "P", [("victim", "V")]⟩

def eHs : Event := ⟨dtA, "HEADSHOT", "P", [("victim", "V")]⟩

def sC2b : Store := apply_event 11 eHs (apply_event 10 eKill sC2)

/-- C4 instance: one active DOGTAG quest, a known player with stats, and no
quest_progress row for the pair. -/
def qDog : QuestRow :=
  ⟨1, "dogtags_week", "Collect 5 dog tags", "count_event", "DOGTAG", 5, 0, 100, true⟩

def sC4 : Store :=
  { players := [⟨1, "P", false, 0⟩], stats := [⟨1, 0, 0, 0, 0, 0, 0, 1⟩],
    events := [], quests := [qDog], quest_progress := [],
    next_player_id := 2, next_quest_id := 2 }

def eDog : Event := ⟨dtA, "DOGTAG", "P", []⟩

/-- Store after the first rotation cycle on an empty store: the two seed
quests, active, ending one week after now = 0. -/
def sC9 : Store :=
  { players := [], stats := [], events := [],
    quests := [⟨1, "dogtags_week", "Collect 5 dog tags", "count_event", "DOGTAG",
                 5, 0, 604800, true⟩,
               ⟨2, "survive_week", "Survive 5 raids", "count_event", "SURVIVE",
                 5, 0, 604800, true⟩],
    quest_progress := [], next_player_id := 1, next_quest_id := 3 }

/-- Per-pattern condition under which _parse_ts is independent of the
processing time: when the pattern matches the line, its ts capture is
present, non-empty, and parsed by one of the two full date-time formats
(so neither the today() merge of the time-only format nor the now()
fallback is reached). -/
def tsOkB (strp : String → String → Option DT) (line : String)
    (pat : String × Matcher) : Bool :=
  match pat.2 line with
  | none => true
  | some gd =>
    match gdGet gd "ts" with
    | none => false
    | some s =>
        s != "" &&
        ((strp "%Y-%m-%dT%H:%M:%S" s).isSome || (strp "%Y-%m-%d %H:%M:%S" s).isSome)

/-- All configured patterns satisfy tsOkB on the line. -/
def fullTsOk (strp : String → String → Option DT)
    (pats : List (String × Matcher)) (line : String) : Bool :=
  pats.all (tsOkB strp line)

/-- Abstract compiled KILL rule whose killer capture is whitespace-only on
the matched lines (as a rule like killer=(?P<killer>[^,]*) produces on a
line with a blank killer field). -/
def killWsMatcher : Matcher := fun line =>
  if strContains line "KILL" then
    some [("killer", some "   "), ("victim", some "PlayerB")]
  else none

def c10Cfg : ParserCfg := ⟨[("KILL", killWsMatcher)], ["HEADSHOT", "HS"]⟩

/-- Concrete stand-in for stdlib strptime on the single timestamp used in
the C7 witness: the full ISO format parses it, everything else fails. -/
def strpDemo : String → String → Option DT := fun fmt s =>
  if fmt = "%Y-%m-%dT%H:%M:%S" ∧ s = "2024-01-01T00:00:00" then some dtA else none

/-- Abstract compiled KILL rule that also captures a full timestamp. -/
def killTsMatcher : Matcher := fun line =>
  if strContains line "KILL" then
    some [("ts", some "2024-01-01T00:00:00"),
          ("killer", some "PlayerA"), ("victim", some "PlayerB")]
  else none

def tsCfg : ParserCfg := ⟨[("KILL", killTsMatcher)], ["HEADSHOT", "HS"]⟩

def envC : ParseEnv := ⟨dtA, ⟨2024, 1, 1⟩, strpDemo⟩

/-- Same strptime as envC but a different clock and calendar date. -/
def envD : ParseEnv := ⟨dtB, ⟨2030, 5, 5⟩, strpDemo⟩

/-- C5 instance: an active quest with target 2 tracking DOGTAG. -/
def qC5 : QuestRow := ⟨1, "q1", "Quest", "count_event", "DOGTAG", 2, 0, 100, true⟩

/-- C5 starting progress row: accepted, progress 0, not completed. -/
def rC5 : QPRow := ⟨1, 1, 0, none⟩

def sC5 : Store :=
  { players := [⟨1, "P", false, 0⟩], stats := [⟨1, 0, 0, 0, 0, 0, 0, 1⟩],
    events := [], quests := [qC5], quest_progress := [rC5],
    next_player_id := 2, next_quest_id := 2 }

/-- C4 witness instance: sC4 with an accepted (pre-existing) progress row
for the quest. -/
def sC4b : Store := { sC4 with quest_progress := [⟨1, 1, 0, none⟩] }

/-! ### Leveling lemmas -/

theorem xp_for_level_one : xp_for_level 1 = 0 := by
  simp [xp_for_level]

theorem xp_for_level_strictMono {a b : Nat} (ha : 1 ≤ a) (hab : a < b) :
    xp_for_level a < xp_for_level b := by
  unfold xp_for_level
  have hb : ¬ b ≤ 1 := by omega
  rw [if_neg hb]
  by_cases ha1 : a ≤ 1
  · rw [if_pos ha1]
    exact Nat.add_pos_right _ (by norm_num)
  · rw [if_neg ha1]
    have h1 : a - 1 < b - 1 := by omega
    have h2 : (a - 1) * (a - 1) < (b - 1) * (b - 1) := by nlinarith
    nlinarith

theorem le_xp_for_level_succ (lvl : Nat) : lvl ≤ xp_for_level (lvl + 1) := by
  unfold xp_for_level
  by_cases h : lvl + 1 ≤ 1
  · have hz : lvl = 0 := by omega
    simp [hz]
  · rw [if_neg h]
    simp only [Nat.add_sub_cancel]
    have h1 : 1 ≤ lvl := by omega
    have h2 : lvl ≤ lvl * lvl := Nat.le_mul_of_pos_left lvl h1
    nlinarith

theorem level_go_spec (xp : Nat) :
    ∀ fuel lvl : Nat, 1 ≤ lvl → xp_for_level lvl ≤ xp → xp + 1 ≤ fuel + lvl →
      1 ≤ level_from_xp_go xp fuel lvl ∧
      xp_for_level (level_from_xp_go xp fuel lvl) ≤ xp ∧
      xp < xp_for_level (level_from_xp_go xp fuel lvl + 1) := by
  intro fuel
  induction fuel with
  | zero =>
      intro lvl h1 h2 h3
      refine ⟨h1, h2, ?_⟩
      have hx : xp < lvl := by omega
      exact Nat.lt_of_lt_of_le hx (le_xp_for_level_succ lvl)
  | succ fuel ih =>
      intro lvl h1 h2 h3
      by_cases hguard : xp_for_level (lvl + 1) ≤ xp
      · simpa [level_from_xp_go, hguard] using
          ih (lvl + 1) (by omega) hguard (by omega)
      · simp only [level_from_xp_go, if_neg hguard]
        exact ⟨h1, h2, Nat.lt_of_not_le hguard⟩

theorem level_from_xp_spec (xp : Nat) :
    1 ≤ level_from_xp xp ∧
    xp_for_level (level_from_xp xp) ≤ xp ∧
    xp < xp_for_level (level_from_xp xp + 1) := by
  have h := level_go_spec xp xp 1 (le_refl 1) (by simp [xp_for_level]) (by omega)
  simpa [level_from_xp] using h

theorem level_from_xp_eq_of_sandwich (xp L : Nat) (h1 : 1 ≤ L)
    (h2 : xp_for_level L ≤ xp) (h3 : xp < xp_for_level (L + 1)) :
    level_from_xp xp = L := by
  obtain ⟨r1, r2, r3⟩ := level_from_xp_spec xp
  rcases Nat.lt_trichotomy (level_from_xp xp) L with h | h | h
  · exfalso
    have hss : level_from_xp xp + 1 ≤ L := Nat.succ_le_of_lt h
    have hle : xp_for_level (level_from_xp xp + 1) ≤ xp_for_level L := by
      rcases Nat.eq_or_lt_of_le hss with he | hl
      · exact le_of_eq (by rw [he])
      · exact Nat.le_of_lt (xp_for_level_strictMono (by omega) hl)
    exact Nat.lt_irrefl xp (Nat.lt_of_lt_of_le r3 (Nat.le_trans hle h2))
  · exact h
  · exfalso
    have hss : L + 1 ≤ level_from_xp xp := Nat.succ_le_of_lt h
    have hle : xp_for_level (L + 1) ≤ xp_for_level (level_from_xp xp) := by
      rcases Nat.eq_or_lt_of_le hss with he | hl
      · exact le_of_eq (by rw [he])
      · exact Nat.le_of_lt (xp_for_level_strictMono (by omega) hl)
    exact Nat.lt_irrefl xp (Nat.lt_of_lt_of_le h3 (Nat.le_trans hle r2))

/-! ### Parser lemmas -/

theorem parse_fold_unmatched (env : ParseEnv) (kws : List String) (line : String) :
    ∀ (pats : List (String × Matcher)), (∀ p ∈ pats, p.2 line = none) →
      ∀ acc, pats.foldl (parseOne env kws line) acc = acc := by
  intro pats
  induction pats with
  | nil => intro _ acc; rfl
  | cons p t ih =>
      intro h acc
      have hp : p.2 line = none := h p (List.mem_cons_self p t)
      have ht : ∀ q ∈ t, q.2 line = none := fun q hq => h q (List.mem_cons_of_mem p hq)
      simp only [List.foldl_cons, parseOne, hp]
      exact ih ht acc

theorem emit_self_mem_of_empty (ev : Event) (key : SeenKey) :
    ev ∈ (emit ([], []) ev key).1 := by
  simp [emit]

theorem mem_emit_of_mem (acc : List Event × List SeenKey) (ev e : Event)
    (key : SeenKey) (h : e ∈ acc.1) : e ∈ (emit acc ev key).1 := by
  unfold emit
  split
  · exact h
  · exact List.mem_append_left _ h

theorem parse_ts_indep (env1 env2 : ParseEnv) (hs : env1.strptime = env2.strptime)
    (s : String) (hne : ¬ s = "")
    (hok : (env1.strptime "%Y-%m-%dT%H:%M:%S" s).isSome = true ∨
           (env1.strptime "%Y-%m-%d %H:%M:%S" s).isSome = true) :
    parse_ts env1 (some s) = parse_ts env2 (some s) := by
  simp only [parse_ts]
  rw [if_neg hne, if_neg hne, ← hs]
  cases h1 : env1.strptime "%Y-%m-%dT%H:%M:%S" s with
  | some d => rfl
  | none =>
    cases h2 : env1.strptime "%Y-%m-%d %H:%M:%S" s with
    | some d => rfl
    | none =>
      rw [h1, h2] at hok
      simp at hok

theorem parseOne_time_indep (env1 env2 : ParseEnv) (kws : List String) (line : String)
    (hs : env1.strptime = env2.strptime) (pat : String × Matcher)
    (hok : tsOkB env1.strptime line pat = true) (acc : List Event × List SeenKey) :
    parseOne env1 kws line acc pat = parseOne env2 kws line acc pat := by
  unfold parseOne
  cases hm : pat.2 line with
  | none => rfl
  | some gd =>
    have hts : parse_ts env1 (gdGet gd "ts") = parse_ts env2 (gdGet gd "ts") := by
      have hok2 : (match gdGet gd "ts" with
          | none => false
          | some s =>
              s != "" && ((env1.strptime "%Y-%m-%dT%H:%M:%S" s).isSome ||
                          (env1.strptime "%Y-%m-%d %H:%M:%S" s).isSome)) = true := by
        unfold tsOkB at hok
        rw [hm] at hok
        exact hok
      cases hg : gdGet gd "ts" with
      | none => rw [hg] at hok2; simp at hok2
      | some s =>
        rw [hg] at hok2
        have hok3 : (s != "" && ((env1.strptime "%Y-%m-%dT%H:%M:%S" s).isSome ||
                      (env1.strptime "%Y-%m-%d %H:%M:%S" s).isSome)) = true := hok2
        rw [Bool.and_eq_true, Bool.or_eq_true] at hok3
        refine parse_ts_indep env1 env2 hs s ?_ hok3.2
        simpa using hok3.1
    simp only [hts]

theorem parse_fold_time_indep (env1 env2 : ParseEnv) (kws : List String) (line : String)
    (hs : env1.strptime = env2.strptime) :
    ∀ (pats : List (String × Matcher)),
      (∀ p ∈ pats, tsOkB env1.strptime line p = true) →
      ∀ acc, pats.foldl (parseOne env1 kws line) acc =
             pats.foldl (parseOne env2 kws line) acc := by
  intro pats
  induction pats with
  | nil => intro _ _; rfl
  | cons p t ih =>
      intro h acc
      have hp : tsOkB env1.strptime line p = true := h p (List.mem_cons_self p t)
      have ht : ∀ q ∈ t, tsOkB env1.strptime line q = true :=
        fun q hq => h q (List.mem_cons_of_mem p hq)
      simp only [List.foldl_cons]
      rw [parseOne_time_indep env1 env2 kws line hs p hp acc]
      exact ih ht _

/-! ## Claim C1 -/

/-- C1: the ingestion worker is claimed to apply every event of the parsed
sequence to the Progression Engine. On a line that the KILL rule matches
and that carries a headshot keyword, parse returns two events, yet the
loop body of main raises AttributeError (it reads ev.game_name from the
list returned by parse), so not a single event of the sequence reaches the
engine: the code contradicts the documented list contract of parse. -/
theorem c1_worker_misuses_parse_list :
    (parse demoCfg envA "PlayerA KILL PlayerB HEADSHOT").length = 2 ∧
    mainLoopBody demoCfg envA sEmpty "PlayerA KILL PlayerB HEADSHOT" =
      Except.error PyErr.attributeError := by
  exact ⟨by decide, by rfl⟩

/-! ## Claim C2 -/

/-- C2 counterexample: the claim says the stored level after KILL (award
100) then HEADSHOT (award 25) on an eligible player starting at 0 XP is 2.
Running both events through the Progression Engine gives xp = 125 but
level 1, because xp_for_level 2 = 200 in the code, not 100. -/
theorem c2_counterexample :
    statsXp sC2b 1 = some 125 ∧ statsLevel sC2b 1 ≠ some 2 := by
  exact ⟨by decide, by decide⟩

/-- C2 amended: for an eligible player starting at 0 XP, a KILL (award
100) followed by a HEADSHOT (award 25) leaves stored xp = 125 and stored
level = 1, since the level-2 threshold of the curve in the code is
xp_for_level 2 = 200 > 125. -/
theorem c2_xp_and_level_after_kill_headshot :
    statsXp sC2b 1 = some 125 ∧ statsLevel sC2b 1 = some 1 ∧
    xp_for_level 2 = 200 := by
  exact ⟨by decide, by decide, by decide⟩

/-! ## Claim C4 -/

/-- C4 counterexample: with an active DOGTAG quest in the store and a
player with no progress row for it, applying that player's first DOGTAG
event through the Progression Engine creates no progress row at all — the
quest-progress UPDATE only increments rows that already exist — refuting
the claim that after a first matching event the player has a progress row
with progress at least 1. -/
theorem c4_counterexample :
    (sC4.quests = [qDog] ∧ qDog.active = true ∧ qDog.event_type = "DOGTAG" ∧
     progressRow sC4 1 1 = none) ∧
    progressRow (apply_event 5 eDog sC4) 1 1 = none := by
  exact ⟨⟨by decide, by decide, by decide, by decide⟩, by decide⟩

/-! ## Claim C9 -/

/-- C9: the claim says the rotation seed insert is idempotent by quest key
and rotation never fails. The rotation code performs a plain INSERT; with
the quests key a UNIQUE natural key (modelled from spec section 3, the
schema file being absent from the sources), the first rotation on an empty
store seeds the two quests, and a rotation invoked after they expire
deactivates them, finds zero active, re-inserts the same keys and fails
with a uniqueness violation instead of leaving the present seeds
untouched. -/
theorem c9_reseed_not_idempotent :
    rotate_weekly_quests 0 sEmpty = Except.ok sC9 ∧
    rotate_weekly_quests (2 * secondsPerWeek) sC9 =
      Except.error SqlErr.uniqueViolation := by
  exact ⟨by rfl, by rfl⟩

/-! ## Claim C3 -/

/-- C3: for every level L at least 1 the level curve and its inverse
round-trip exactly: level_from_xp (xp_for_level L) = L, and for L above 1
also level_from_xp (xp_for_level L - 1) = L - 1. -/
theorem c3_level_roundtrip (L : Nat) (h : 1 ≤ L) :
    level_from_xp (xp_for_level L) = L ∧
    (1 < L → level_from_xp (xp_for_level L - 1) = L - 1) := by
  constructor
  · exact level_from_xp_eq_of_sandwich _ L h (le_refl _)
      (xp_for_level_strictMono h (Nat.lt_succ_self L))
  · intro hL
    have h1 : (1 : Nat) ≤ L - 1 := by omega
    have hmono : xp_for_level (L - 1) < xp_for_level L :=
      xp_for_level_strictMono h1 (by omega)
    have hpos : 0 < xp_for_level L := by
      have h0 : xp_for_level 1 < xp_for_level L :=
        xp_for_level_strictMono (le_refl 1) (by omega)
      rw [xp_for_level_one] at h0
      exact h0
    have hLs : L - 1 + 1 = L := by omega
    apply level_from_xp_eq_of_sandwich _ (L - 1) h1
    · exact Nat.le_sub_one_of_lt hmono
    · rw [hLs]
      exact Nat.sub_lt hpos (by norm_num)

/-- Witness for C3 at the concrete level 3. -/
theorem c3_witness :
    (1 : Nat) ≤ 3 ∧ (level_from_xp (xp_for_level 3) = 3 ∧
      (1 < 3 → level_from_xp (xp_for_level 3 - 1) = 3 - 1)) :=
  ⟨by decide, c3_level_roundtrip 3 (by decide)⟩

/-! ## Claim C7 -/

/-- C7 counterexample: the claim says parse on the same line at different
processing times yields identical event sequences. With a KILL rule that
captures no timestamp, _parse_ts falls back to the processing-time clock,
so two parses of the same line one second apart produce events with
different timestamps. -/
theorem c7_counterexample :
    parse demoCfg envA "PlayerA KILL PlayerB" ≠
    parse demoCfg envB "PlayerA KILL PlayerB" := by decide

/-- C7 amended: parse is deterministic over its input line given the
processing-time environment (same clock, date and strptime), and its
output is independent of the processing time whenever every matched
pattern captures a non-empty timestamp parsed by one of the two full
date-time formats; with a missing, empty, unparseable or time-only
timestamp capture the event timestamps depend on processing time. -/
theorem c7_parse_deterministic_given_time (cfg : ParserCfg) (env1 env2 : ParseEnv)
    (line : String) (hs : env1.strptime = env2.strptime)
    (hok : fullTsOk env1.strptime cfg.patterns line = true) :
    parse cfg env1 line = parse cfg env2 line := by
  unfold parse
  rw [parse_fold_time_indep env1 env2 cfg.headshot_keywords line hs cfg.patterns
        (by rw [fullTsOk, List.all_eq_true] at hok; exact hok) ([], [])]

/-- Witness for C7: a KILL rule with a full ISO timestamp capture parsed
at two different clocks and calendar dates yields identical events. -/
theorem c7_witness :
    (envC.strptime = envD.strptime ∧
     fullTsOk envC.strptime tsCfg.patterns "PlayerA KILL PlayerB" = true) ∧
    parse tsCfg envC "PlayerA KILL PlayerB" = parse tsCfg envD "PlayerA KILL PlayerB" :=
  ⟨⟨rfl, by decide⟩,
   c7_parse_deterministic_given_time tsCfg envC envD "PlayerA KILL PlayerB" rfl (by decide)⟩

/-! ## Claim C8 -/

/-- C8: parse is total — the Lean embedding is a total function, matching
the never-raises contract — and a line matched by no configured pattern
yields the empty event sequence. -/
theorem c8_unmatched_yields_empty (cfg : ParserCfg) (env : ParseEnv) (line : String)
    (h : ∀ p ∈ cfg.patterns, p.2 line = none) :
    parse cfg env line = [] := by
  unfold parse
  rw [parse_fold_unmatched env cfg.headshot_keywords line cfg.patterns h ([], [])]

/-- Witness for C8 on a line the demo KILL rule does not match. -/
theorem c8_witness :
    (∀ p ∈ demoCfg.patterns, p.2 "no match here" = none) ∧
    parse demoCfg envA "no match here" = [] :=
  ⟨by decide, c8_unmatched_yields_empty demoCfg envA "no match here" (by decide)⟩

/-! ## Claim C10 -/

/-- C10 counterexample: the claim says an event whose actor capture
normalizes to the empty string is dropped before reaching the Progression
Engine. On a KILL line whose killer capture is whitespace, parse emits the
KILL event anyway, with game_name equal to the empty string — nothing in
the extractor or the worker filters it. -/
theorem c10_counterexample :
    parse c10Cfg envA "a KILL happened" =
      [⟨dtA, "KILL", "", [("victim", "PlayerB")]⟩] ∧
    (⟨dtA, "KILL", "", [("victim", "PlayerB")]⟩ : Event).game_name = "" := by
  exact ⟨by decide, by decide⟩

/-- C10 amended: the Extractor performs no actor validation: for any
single-pattern KILL configuration, if the rule matches a line with a
killer capture whose strip is empty (or no killer group at all), parse
still emits an event whose actor is the empty string, so the engine can be
handed an empty-actor event. -/
theorem c10_empty_actor_not_dropped (env : ParseEnv) (kws : List String)
    (m : Matcher) (line : String) (gd : GroupDict)
    (hm : m line = some gd)
    (hk : strStrip (match gdGet gd "killer" with | some s => s | none => "") = "") :
    ∃ e ∈ parse ⟨[("KILL", m)], kws⟩ env line, e.game_name = "" := by
  unfold parse
  simp only [List.foldl_cons, List.foldl_nil, parseOne, hm]
  rw [if_pos trivial]
  by_cases hhs : contains_headshot kws line gd
  · simp only [hhs, if_true]
    exact ⟨_, mem_emit_of_mem _ _ _ _ (emit_self_mem_of_empty _ _), hk⟩
  · simp only [hhs, Bool.false_eq_true, if_false]
    exact ⟨_, emit_self_mem_of_empty _ _, hk⟩

/-- Witness for C10 on the whitespace-killer rule and a concrete line. -/
theorem c10_witness :
    (killWsMatcher "a KILL happened" =
       some [("killer", some "   "), ("victim", some "PlayerB")] ∧
     strStrip (match gdGet [("killer", some "   "), ("victim", some "PlayerB")] "killer" with
               | some s => s | none => "") = "") ∧
    (∃ e ∈ parse ⟨[("KILL", killWsMatcher)], ["HEADSHOT", "HS"]⟩ envA "a KILL happened",
       e.game_name = "") :=
  ⟨⟨by decide, by decide⟩,
   c10_empty_actor_not_dropped envA ["HEADSHOT", "HS"] killWsMatcher "a KILL happened"
     [("killer", some "   "), ("victim", some "PlayerB")] (by decide) (by decide)⟩

/-! ### Store lemmas -/

theorem find?_map_of_pred_stable {α : Type} (g : α → α) (p : α → Bool)
    (h : ∀ a, p (g a) = p a) :
    ∀ l : List α, (l.map g).find? p = (l.find? p).map g := by
  intro l
  induction l with
  | nil => rfl
  | cons a t ih =>
      cases hpa : p a with
      | true => simp [List.find?, h a, hpa]
      | false => simp [List.find?, h a, hpa, ih]

theorem bumpStat_player_id (t : String) (r : StatsRow) :
    (bumpStat t r).player_id = r.player_id := by
  unfold bumpStat
  repeat' split
  all_goals rfl

theorem bumpStat_xp (t : String) (r : StatsRow) : (bumpStat t r).xp = r.xp := by
  unfold bumpStat
  repeat' split
  all_goals rfl

theorem bumpStat_level (t : String) (r : StatsRow) : (bumpStat t r).level = r.level := by
  unfold bumpStat
  repeat' split
  all_goals rfl

theorem applyXpGate_of_not_eligible (pid xp : Nat) (s : Store)
    (h : playerEligible s pid = false) : applyXpGate pid xp s = s := by
  unfold applyXpGate
  split
  · rw [h]
    simp
  · rfl

theorem statsXp_statCounter (pid : Nat) (t : String) (p : Nat) (s : Store) :
    statsXp (applyStatCounter pid t s) p = statsXp s p := by
  unfold statsXp statsRow applyStatCounter
  rw [find?_map_of_pred_stable _ _ (fun r => by
    by_cases hc : r.player_id == pid
    · simp [hc, bumpStat_player_id]
    · simp [hc])]
  cases h : s.stats.find? (fun r => r.player_id == p) with
  | none => rfl
  | some r =>
      by_cases hc : r.player_id = pid
      · simp [hc, bumpStat_xp]
      · simp [hc]

theorem statsLevel_statCounter (pid : Nat) (t : String) (p : Nat) (s : Store) :
    statsLevel (applyStatCounter pid t s) p = statsLevel s p := by
  unfold statsLevel statsRow applyStatCounter
  rw [find?_map_of_pred_stable _ _ (fun r => by
    by_cases hc : r.player_id == pid
    · simp [hc, bumpStat_player_id]
    · simp [hc])]
  cases h : s.stats.find? (fun r => r.player_id == p) with
  | none => rfl
  | some r =>
      by_cases hc : r.player_id = pid
      · simp [hc, bumpStat_level]
      · simp [hc]

theorem applyXpGate_quest_progress (pid xp : Nat) (s : Store) :
    (applyXpGate pid xp s).quest_progress = s.quest_progress := by
  unfold applyXpGate
  repeat' first
    | rfl
    | split
    | dsimp only

theorem applyXpGate_quests (pid xp : Nat) (s : Store) :
    (applyXpGate pid xp s).quests = s.quests := by
  unfold applyXpGate
  repeat' first
    | rfl
    | split
    | dsimp only

theorem incUpd_keys (qs : List QuestRow) (pid : Nat) (t : String) (r : QPRow) :
    (incUpd qs pid t r).player_id = r.player_id ∧
    (incUpd qs pid t r).quest_id = r.quest_id := by
  unfold incUpd
  split <;> exact ⟨rfl, rfl⟩

theorem cmpUpd_keys (qs : List QuestRow) (now pid : Nat) (r : QPRow) :
    (cmpUpd qs now pid r).player_id = r.player_id ∧
    (cmpUpd qs now pid r).quest_id = r.quest_id := by
  unfold cmpUpd
  split <;> exact ⟨rfl, rfl⟩

theorem cmpUpd_progress (qs : List QuestRow) (now pid : Nat) (r : QPRow) :
    (cmpUpd qs now pid r).progress = r.progress := by
  unfold cmpUpd
  split <;> rfl

theorem incUpd_completed (qs : List QuestRow) (pid : Nat) (t : String) (r : QPRow) :
    (incUpd qs pid t r).completed_ts = r.completed_ts := by
  unfold incUpd
  split <;> rfl

theorem incUpd_progress_le (qs : List QuestRow) (pid : Nat) (t : String) (r : QPRow) :
    r.progress ≤ (incUpd qs pid t r).progress := by
  unfold incUpd
  split <;> simp

theorem incUpd_progress_change (qs : List QuestRow) (pid : Nat) (t : String) (r : QPRow)
    (hne : (incUpd qs pid t r).progress ≠ r.progress) :
    (r.player_id == pid) = true := by
  unfold incUpd at hne
  by_cases hcond : (r.player_id == pid &&
      qs.any (fun q => q.id == r.quest_id && q.active && q.event_type == t)) = true
  · rw [Bool.and_eq_true] at hcond
    exact hcond.1
  · rw [if_neg hcond] at hne
    exact absurd rfl hne

theorem progressRow_award (now pid : Nat) (ev : Event) (s : Store) (p qid : Nat) :
    progressRow (award_xp_and_stats now pid ev s) p qid =
      ((progressRow s p qid).map (incUpd s.quests pid ev.type)).map
        (cmpUpd s.quests now pid) := by
  unfold award_xp_and_stats
  have hq : (applyXpGate pid (xp_for_event ev.type) (applyStatCounter pid ev.type s)).quests
      = s.quests := applyXpGate_quests _ _ _
  have hqp : (applyXpGate pid (xp_for_event ev.type)
      (applyStatCounter pid ev.type s)).quest_progress
      = s.quest_progress := applyXpGate_quest_progress _ _ _
  unfold progressRow applyQuestCompletion applyQuestIncrement
  dsimp only
  rw [hq, hqp]
  rw [find?_map_of_pred_stable (cmpUpd s.quests now pid) _ (fun r => by
        simp [(cmpUpd_keys s.quests now pid r).1, (cmpUpd_keys s.quests now pid r).2]),
      find?_map_of_pred_stable (incUpd s.quests pid ev.type) _ (fun r => by
        simp [(incUpd_keys s.quests pid ev.type r).1, (incUpd_keys s.quests pid ev.type r).2])]

theorem upsert_player_quests (now : Nat) (n : String) (s : Store) :
    (upsert_player now n s).2.quests = s.quests := by
  unfold upsert_player
  cases h : s.players.find? (fun p => p.game_name == n) <;> rfl

theorem upsert_player_qp (now : Nat) (n : String) (s : Store) :
    (upsert_player now n s).2.quest_progress = s.quest_progress := by
  unfold upsert_player
  cases h : s.players.find? (fun p => p.game_name == n) <;> rfl

theorem ensure_stats_quests (pid : Nat) (s : Store) :
    (ensure_stats pid s).quests = s.quests := by
  unfold ensure_stats
  split <;> rfl

theorem ensure_stats_qp (pid : Nat) (s : Store) :
    (ensure_stats pid s).quest_progress = s.quest_progress := by
  unfold ensure_stats
  split <;> rfl

theorem progressRow_congr {s1 s2 : Store}
    (h : s1.quest_progress = s2.quest_progress) (p qid : Nat) :
    progressRow s1 p qid = progressRow s2 p qid := by
  unfold progressRow
  rw [h]

theorem apply_event_quests (now : Nat) (ev : Event) (s : Store) :
    (apply_event now ev s).quests = s.quests := by
  unfold apply_event award_xp_and_stats
  show (applyXpGate _ _ (applyStatCounter _ _ _)).quests = s.quests
  rw [applyXpGate_quests]
  show (add_event ev (ensure_stats _ (upsert_player now ev.game_name s).2)).quests = s.quests
  show (ensure_stats _ (upsert_player now ev.game_name s).2).quests = s.quests
  rw [ensure_stats_quests, upsert_player_quests]

theorem progressRow_apply_event (now : Nat) (ev : Event) (s : Store) (p qid : Nat) :
    ∃ pid, progressRow (apply_event now ev s) p qid =
      ((progressRow s p qid).map (incUpd s.quests pid ev.type)).map
        (cmpUpd s.quests now pid) := by
  refine ⟨(upsert_player now ev.game_name s).1, ?_⟩
  unfold apply_event
  rw [progressRow_award]
  have h1 : (add_event ev (ensure_stats (upsert_player now ev.game_name s).1
      (upsert_player now ev.game_name s).2)).quests = s.quests := by
    show (ensure_stats _ (upsert_player now ev.game_name s).2).quests = s.quests
    rw [ensure_stats_quests, upsert_player_quests]
  have h2 : progressRow (add_event ev (ensure_stats (upsert_player now ev.game_name s).1
      (upsert_player now ev.game_name s).2)) p qid = progressRow s p qid := by
    apply progressRow_congr
    show (ensure_stats _ (upsert_player now ev.game_name s).2).quest_progress
        = s.quest_progress
    rw [ensure_stats_qp, upsert_player_qp]
  rw [h1, h2]

theorem cmpUpd_step (qs : List QuestRow) (now pid qid : Nat) (q : QuestRow)
    (hq : qs.find? (fun qq => qq.id == qid) = some q) (hact : q.active = true)
    (r1 : QPRow) (hrq : r1.quest_id = qid)
    (hOK : r1.completed_ts = none → q.target ≤ r1.progress → (r1.player_id == pid) = true) :
    (cmpUpd qs now pid r1).progress = r1.progress ∧
    (cmpUpd qs now pid r1).player_id = r1.player_id ∧
    (cmpUpd qs now pid r1).quest_id = r1.quest_id ∧
    (r1.completed_ts ≠ none → (cmpUpd qs now pid r1).completed_ts = r1.completed_ts) ∧
    (r1.completed_ts = none → ¬ q.target ≤ r1.progress → cmpUpd qs now pid r1 = r1) ∧
    (r1.completed_ts = none → q.target ≤ r1.progress →
      (cmpUpd qs now pid r1).completed_ts = some now) := by
  have hfind : qs.find? (fun q2 => q2.id == r1.quest_id) = some q := by
    rw [hrq]
    exact hq
  have hmem : q ∈ qs := List.mem_of_find?_eq_some hq
  have hbeq : (q.id == qid) = true := by
    have h := List.find?_some hq
    simpa using h
  refine ⟨cmpUpd_progress qs now pid r1, (cmpUpd_keys qs now pid r1).1,
          (cmpUpd_keys qs now pid r1).2, ?_, ?_, ?_⟩
  · intro hc
    cases hcc : r1.completed_ts with
    | none => exact absurd hcc hc
    | some c =>
        have hcond : ¬ (r1.player_id == pid &&
            qs.any (fun q2 => q2.id == r1.quest_id && q2.active) &&
            (match qs.find? (fun q2 => q2.id == r1.quest_id) with
             | some q2 => decide (q2.target ≤ r1.progress)
             | none => false) && r1.completed_ts.isNone) = true := by
          simp [hcc]
        unfold cmpUpd
        rw [if_neg hcond]
        exact hcc
  · intro hc ht
    have hcond : ¬ (r1.player_id == pid &&
        qs.any (fun q2 => q2.id == r1.quest_id && q2.active) &&
        (match qs.find? (fun q2 => q2.id == r1.quest_id) with
         | some q2 => decide (q2.target ≤ r1.progress)
         | none => false) && r1.completed_ts.isNone) = true := by
      simp [hfind, ht]
    unfold cmpUpd
    rw [if_neg hcond]
  · intro hc ht
    have hcond : (r1.player_id == pid &&
        qs.any (fun q2 => q2.id == r1.quest_id && q2.active) &&
        (match qs.find? (fun q2 => q2.id == r1.quest_id) with
         | some q2 => decide (q2.target ≤ r1.progress)
         | none => false) && r1.completed_ts.isNone) = true := by
      rw [Bool.and_eq_true, Bool.and_eq_true, Bool.and_eq_true]
      refine ⟨⟨⟨hOK hc ht, ?_⟩, ?_⟩, ?_⟩
      · apply List.any_eq_true.mpr
        refine ⟨q, hmem, ?_⟩
        rw [Bool.and_eq_true]
        constructor
        · rw [hrq]
          exact hbeq
        · exact hact
      · rw [hfind]
        exact decide_eq_true ht
      · rw [hc]
        rfl
    unfold cmpUpd
    rw [if_pos hcond]

theorem apply_event_qp_step (now : Nat) (ev : Event) (s : Store) (p qid : Nat) (q : QuestRow)
    (hq : s.quests.find? (fun qq => qq.id == qid) = some q) (hact : q.active = true)
    (r : QPRow) (hr : progressRow s p qid = some r)
    (hinv : r.completed_ts ≠ none ↔ q.target ≤ r.progress) :
    ∃ r2, progressRow (apply_event now ev s) p qid = some r2 ∧
      r.progress ≤ r2.progress ∧
      (∀ c, r.completed_ts = some c → r2.completed_ts = some c) ∧
      (r2.completed_ts ≠ none ↔ q.target ≤ r2.progress) ∧
      (r.completed_ts = none → q.target ≤ r2.progress → r2.completed_ts = some now) := by
  obtain ⟨pid, hrow⟩ := progressRow_apply_event now ev s p qid
  rw [hr] at hrow
  have hrow2 : progressRow (apply_event now ev s) p qid =
      some (cmpUpd s.quests now pid (incUpd s.quests pid ev.type r)) := hrow
  have hr2 : s.quest_progress.find? (fun r2 => r2.player_id == p && r2.quest_id == qid)
      = some r := hr
  have hpq := List.find?_some hr2
  rw [Bool.and_eq_true] at hpq
  have hrqid : r.quest_id = qid := by simpa using hpq.2
  have h1keys := incUpd_keys s.quests pid ev.type r
  have h1prog : r.progress ≤ (incUpd s.quests pid ev.type r).progress :=
    incUpd_progress_le _ _ _ _
  have h1comp : (incUpd s.quests pid ev.type r).completed_ts = r.completed_ts :=
    incUpd_completed _ _ _ _
  have h1qid : (incUpd s.quests pid ev.type r).quest_id = qid := by
    rw [h1keys.2, hrqid]
  have hOK : (incUpd s.quests pid ev.type r).completed_ts = none →
      q.target ≤ (incUpd s.quests pid ev.type r).progress →
      ((incUpd s.quests pid ev.type r).player_id == pid) = true := by
    intro hcn htg
    by_cases hch : (incUpd s.quests pid ev.type r).progress = r.progress
    · rw [hch] at htg
      rw [h1comp] at hcn
      exact absurd hcn (by simpa [hcn] using hinv.mpr htg)
    · have hp := incUpd_progress_change s.quests pid ev.type r hch
      rw [h1keys.1]
      exact hp
  obtain ⟨c2prog, c2pid, c2qid, c2keep, c2skip, c2fire⟩ :=
    cmpUpd_step s.quests now pid qid q hq hact (incUpd s.quests pid ev.type r) h1qid hOK
  refine ⟨cmpUpd s.quests now pid (incUpd s.quests pid ev.type r), hrow2, ?_, ?_, ?_, ?_⟩
  · rw [c2prog]
    exact h1prog
  · intro c hcc
    have h1c : (incUpd s.quests pid ev.type r).completed_ts = some c := by
      rw [h1comp]
      exact hcc
    rw [c2keep (by rw [h1c]; simp)]
    exact h1c
  · constructor
    · intro hne2
      by_cases hcn : (incUpd s.quests pid ev.type r).completed_ts = none
      · by_cases htg : q.target ≤ (incUpd s.quests pid ev.type r).progress
        · rw [c2prog]
          exact htg
        · rw [c2skip hcn htg] at hne2
          exact (hne2 hcn).elim
      · have hrc : r.completed_ts ≠ none := by
          rw [← h1comp]
          exact hcn
        rw [c2prog]
        exact le_trans (hinv.mp hrc) h1prog
    · intro htg2
      by_cases hcn : (incUpd s.quests pid ev.type r).completed_ts = none
      · have htg1 : q.target ≤ (incUpd s.quests pid ev.type r).progress := by
          rw [← c2prog]
          exact htg2
        rw [c2fire hcn htg1]
        simp
      · rw [c2keep hcn]
        exact hcn
  · intro hcn0 htg2
    have hcn1 : (incUpd s.quests pid ev.type r).completed_ts = none := by
      rw [h1comp]
      exact hcn0
    have htg1 : q.target ≤ (incUpd s.quests pid ev.type r).progress := by
      rw [← c2prog]
      exact htg2
    exact c2fire hcn1 htg1

theorem run_events_cons (s : Store) (te : Nat × Event) (l : List (Nat × Event)) :
    run_events s (te :: l) = run_events (apply_event te.1 te.2 s) l := rfl

theorem run_events_quests (l : List (Nat × Event)) :
    ∀ s : Store, (run_events s l).quests = s.quests := by
  induction l with
  | nil => intro s; rfl
  | cons te t ih =>
      intro s
      rw [run_events_cons, ih, apply_event_quests]

theorem run_events_qp (p qid : Nat) (q : QuestRow) (hact : q.active = true) :
    ∀ (l : List (Nat × Event)) (s : Store) (r : QPRow),
      s.quests.find? (fun qq => qq.id == qid) = some q →
      progressRow s p qid = some r →
      (r.completed_ts ≠ none ↔ q.target ≤ r.progress) →
      ∃ r2, progressRow (run_events s l) p qid = some r2 ∧
        r.progress ≤ r2.progress ∧
        (∀ c, r.completed_ts = some c → r2.completed_ts = some c) ∧
        (r2.completed_ts ≠ none ↔ q.target ≤ r2.progress) := by
  intro l
  induction l with
  | nil =>
      intro s r hq hr hinv
      exact ⟨r, hr, le_refl _, fun c hc => hc, hinv⟩
  | cons te t ih =>
      intro s r hq hr hinv
      obtain ⟨r1, hrow1, hp1, hk1, hinv1, _⟩ :=
        apply_event_qp_step te.1 te.2 s p qid q hq hact r hr hinv
      have hq1 : (apply_event te.1 te.2 s).quests.find? (fun qq => qq.id == qid)
          = some q := by
        rw [apply_event_quests]
        exact hq
      obtain ⟨r2, hrow2, hp2, hk2, hinv2⟩ := ih (apply_event te.1 te.2 s) r1 hq1 hrow1 hinv1
      exact ⟨r2, hrow2, le_trans hp1 hp2, fun c hc => hk2 c (hk1 c hc), hinv2⟩

/-! ## Claim C4, amended part -/

/-- C4 amended: the quest-progress UPDATE of the Progression Engine only
increments rows that already exist (accepted quests): a (player, quest)
pair with no progress row still has none after applying an event, and an
existing row of the acting player for an active quest tracking the event
type has its progress incremented by exactly one. -/
theorem c4_quest_increment_accepted_only (s : Store) (now pid p qid : Nat) (ev : Event) :
    (progressRow s p qid = none →
      progressRow (award_xp_and_stats now pid ev s) p qid = none) ∧
    (∀ r, progressRow s p qid = some r → p = pid →
      questActiveMatching s qid ev.type = true →
      progressOf (award_xp_and_stats now pid ev s) p qid = some (r.progress + 1)) := by
  constructor
  · intro h
    rw [progressRow_award, h]
    rfl
  · intro r hr hp hm
    have hr2 : s.quest_progress.find? (fun r2 => r2.player_id == p && r2.quest_id == qid)
        = some r := hr
    have hpq := List.find?_some hr2
    rw [Bool.and_eq_true] at hpq
    have hpid : r.player_id = pid := by
      have h1 : r.player_id = p := by simpa using hpq.1
      rw [h1, hp]
    have hqid : r.quest_id = qid := by simpa using hpq.2
    have hinc : incUpd s.quests pid ev.type r = { r with progress := r.progress + 1 } := by
      unfold incUpd
      rw [if_pos]
      rw [Bool.and_eq_true]
      refine ⟨by simp [hpid], ?_⟩
      rw [hqid]
      exact hm
    unfold progressOf
    rw [progressRow_award, hr]
    simp [hinc, cmpUpd_progress]

/-- Witness for C4 amended on a store with an accepted progress row. -/
theorem c4_witness :
    (progressRow sC4b 1 1 = some ⟨1, 1, 0, none⟩ ∧
     questActiveMatching sC4b 1 "DOGTAG" = true) ∧
    progressOf (award_xp_and_stats 5 1 eDog sC4b) 1 1 = some (0 + 1) :=
  ⟨⟨by decide, by decide⟩,
   (c4_quest_increment_accepted_only sC4b 5 1 1 1 eDog).2 ⟨1, 1, 0, none⟩
     (by decide) rfl (by decide)⟩

/-! ## Claim C5 -/

/-- C5: for a progress row of an active quest that starts not completed
and below target, across any sequence of applied events: progress never
decreases; once completed_ts is assigned it is never changed by later
events; completed_ts is assigned exactly when progress has reached target;
and it is assigned at the first application after which progress reaches
target, stamped with that application time. -/
theorem c5_progress_monotone_completion_once (s0 : Store) (p qid : Nat) (q : QuestRow)
    (r0 : QPRow)
    (hq : s0.quests.find? (fun qq => qq.id == qid) = some q) (hact : q.active = true)
    (hr : progressRow s0 p qid = some r0) (hc0 : r0.completed_ts = none)
    (hp0 : r0.progress < q.target) :
    ∀ l rest : List (Nat × Event),
      ∃ r1 r2, progressRow (run_events s0 l) p qid = some r1 ∧
        progressRow (run_events s0 (l ++ rest)) p qid = some r2 ∧
        r1.progress ≤ r2.progress ∧
        (∀ c, r1.completed_ts = some c → r2.completed_ts = some c) ∧
        (r1.completed_ts ≠ none ↔ q.target ≤ r1.progress) ∧
        (∀ tt ee, rest = [(tt, ee)] → r1.progress < q.target →
          q.target ≤ r2.progress → r2.completed_ts = some tt) := by
  intro l rest
  have hinv0 : r0.completed_ts ≠ none ↔ q.target ≤ r0.progress := by
    constructor
    · intro h
      exact (h hc0).elim
    · intro h
      exact (Nat.not_le_of_lt hp0 h).elim
  obtain ⟨r1, hrow1, hp1, hk1, hinv1⟩ := run_events_qp p qid q hact l s0 r0 hq hr hinv0
  have hq1 : (run_events s0 l).quests.find? (fun qq => qq.id == qid) = some q := by
    rw [run_events_quests]
    exact hq
  obtain ⟨r2, hrow2, hp2, hk2, hinv2⟩ :=
    run_events_qp p qid q hact rest (run_events s0 l) r1 hq1 hrow1 hinv1
  have hsplit : run_events s0 (l ++ rest) = run_events (run_events s0 l) rest := by
    unfold run_events
    rw [List.foldl_append]
  refine ⟨r1, r2, hrow1, by rw [hsplit]; exact hrow2, hp2, hk2, hinv1, ?_⟩
  intro tt ee hrest hlt htg
  subst hrest
  obtain ⟨r2x, hrow2x, hp2x, hk2x, hinv2x, hfirex⟩ :=
    apply_event_qp_step tt ee (run_events s0 l) p qid q hq1 hact r1 hrow1 hinv1
  have hsame : progressRow (apply_event tt ee (run_events s0 l)) p qid = some r2 := hrow2
  have hr2eq : r2x = r2 := Option.some.inj (hrow2x.symm.trans hsame)
  have hc1 : r1.completed_ts = none := by
    by_contra hne
    exact absurd (hinv1.mp hne) (Nat.not_le_of_lt hlt)
  rw [← hr2eq]
  refine hfirex hc1 ?_
  rw [hr2eq]
  exact htg

/-- Witness for C5 on the target-2 DOGTAG quest: one DOGTAG event then one
more. -/
theorem c5_witness :
    (sC5.quests.find? (fun qq => qq.id == 1) = some qC5 ∧ qC5.active = true ∧
     progressRow sC5 1 1 = some rC5 ∧ rC5.completed_ts = none ∧
     rC5.progress < qC5.target) ∧
    (∃ r1 r2, progressRow (run_events sC5 [(1, eDog)]) 1 1 = some r1 ∧
      progressRow (run_events sC5 ([(1, eDog)] ++ [(2, eDog)])) 1 1 = some r2 ∧
      r1.progress ≤ r2.progress ∧
      (∀ c, r1.completed_ts = some c → r2.completed_ts = some c) ∧
      (r1.completed_ts ≠ none ↔ qC5.target ≤ r1.progress) ∧
      (∀ tt ee, [(2, eDog)] = [(tt, ee)] → r1.progress < qC5.target →
        qC5.target ≤ r2.progress → r2.completed_ts = some tt)) :=
  ⟨⟨by decide, by decide, by decide, by decide, by decide⟩,
   c5_progress_monotone_completion_once sC5 1 1 qC5 rC5 (by decide) (by decide)
     (by decide) (by decide) (by decide) [(1, eDog)] [(2, eDog)]⟩

/-! ## Claim C6 -/

/-- C6: applying any event through the Progression Engine for a player
whose eligible flag is unset (or who has no players row) leaves the stored
xp and level of that player exactly unchanged, whatever stat counters or
quest updates the event causes. -/
theorem c6_ineligible_keeps_xp_level (s : Store) (now pid : Nat) (ev : Event)
    (h : playerEligible s pid = false) :
    statsXp (award_xp_and_stats now pid ev s) pid = statsXp s pid ∧
    statsLevel (award_xp_and_stats now pid ev s) pid = statsLevel s pid := by
  unfold award_xp_and_stats
  have h1 : playerEligible (applyStatCounter pid ev.type s) pid = playerEligible s pid := rfl
  rw [applyXpGate_of_not_eligible _ _ _ (h1.trans h)]
  have e1 : ∀ (x : Store) (q : Nat), statsXp (applyQuestCompletion now pid x) q = statsXp x q :=
    fun x q => rfl
  have e2 : ∀ (x : Store) (q : Nat), statsXp (applyQuestIncrement pid ev.type x) q = statsXp x q :=
    fun x q => rfl
  have e3 : ∀ (x : Store) (q : Nat),
      statsLevel (applyQuestCompletion now pid x) q = statsLevel x q :=
    fun x q => rfl
  have e4 : ∀ (x : Store) (q : Nat),
      statsLevel (applyQuestIncrement pid ev.type x) q = statsLevel x q :=
    fun x q => rfl
  rw [e1, e2, e3, e4, statsXp_statCounter, statsLevel_statCounter]
  exact ⟨rfl, rfl⟩

/-- Witness for C6 on the non-eligible player of sC4 with a KILL event. -/
theorem c6_witness :
    playerEligible sC4 1 = false ∧
    (statsXp (award_xp_and_stats 7 1 eKill sC4) 1 = statsXp sC4 1 ∧
     statsLevel (award_xp_and_stats 7 1 eKill sC4) 1 = statsLevel sC4 1) :=
  ⟨by decide, c6_ineligible_keeps_xp_level sC4 7 1 eKill (by decide)⟩

end Fika
